import Mathlib

/-!
Shallow embedding of the holmes89/go-common repository: the query-options
parser (package `query`), the two DynamoDB single-table adapters (packages
`dynamo` and `database`), and the REST create handler (package `api`).
Go strings handled character-wise are modelled as `List Char`; Go machine
integers as `Int`/`Nat` with explicit reduction modulo `2 ^ w` where a
conversion wraps; Go `(value, error)` multiple returns as pairs with an
`Option` error component; the AWS DynamoDB client as an explicit function
argument from request values to results, so that the requests a function
issues are visible in its definition.
-/

set_option autoImplicit false

namespace query

/-- Go strings on which the parser does character work, as lists of characters. -/
abbrev Str := List Char

/-- Model of Go `strings.Split(s, sep)` for a one-character separator:
splits around every occurrence of `sep`; `Split("", sep) = [""]`. -/
def split (sep : Char) : Str → List Str
  | [] => [[]]
  | c :: cs =>
    if c = sep then [] :: split sep cs
    else
      match split sep cs with
      | [] => [[c]]
      | p :: ps => (c :: p) :: ps

/-- Go map read `m[k]`: the value stored under `k`, if any. -/
def lookupKV : List (Str × Str) → Str → Option Str
  | [], _ => none
  | (k, v) :: m, x => if x = k then some v else lookupKV m x

/-- Go map write `m[k] = v`: replace the entry for `k` when present,
append it otherwise (one entry per key). -/
def insertKV (m : List (Str × Str)) (k v : Str) : List (Str × Str) :=
  if m.any (fun p => p.1 = k) then
    m.map (fun p => if p.1 = k then (k, v) else p)
  else
    m ++ [(k, v)]

/-- Pagination options; `Limit` models the Go `uint64` field as a natural
number, `LimitOverride` the Go `bool`. -/
structure Pagination where
  Limit : Nat
  Offset : Str
  LimitOverride : Bool
deriving DecidableEq, Repr

/-- Parsed query options (`query.Opts` in the source); the Go maps are
modelled as association lists with one entry per key. -/
structure Opts where
  Filter : List (Str × Str)
  Sort' : List (Str × Str)
  Pagination : Pagination
deriving DecidableEq, Repr

/-- Parse failures of `ParseOpts`, each naming the offending token
(Go `fmt.Errorf("invalid filter request: %s", f)` and
`fmt.Errorf("invalid sort query: %s", s)`). -/
inductive ParseError
  | invalidFilter (token : Str)
  | invalidSort (token : Str)
deriving DecidableEq, Repr

/-- Go `cleanSlice`: drops empty strings from a slice, keeping order. -/
def cleanSlice : List Str → List Str
  | [] => []
  | e :: a => if e = [] then cleanSlice a else e :: cleanSlice a

/-- Go conversion `uint64(n)` applied to an `int32` value: reduction of the
two's-complement value modulo `2 ^ 64` (negative inputs sign-extend). -/
def uint64OfInt32 (n : Int) : Nat :=
  (n % 2 ^ 64).toNat

/-- The filter loop of `ParseOpts`: skip empty tokens, split each token on
a colon, demand exactly two parts, store part two under part one. -/
def parseFilters (acc : List (Str × Str)) : List Str → Except ParseError (List (Str × Str))
  | [] => .ok acc
  | f :: rest =>
    if f = [] then parseFilters acc rest
    else
      match split ':' f with
      | [a, b] => parseFilters (insertKV acc a b) rest
      | _ => .error (.invalidFilter f)

/-- The sort loop of `ParseOpts`: skip empty tokens, split each token on a
colon, demand at least two parts, store part two under part one and ignore
any trailing parts. -/
def parseSorts (acc : List (Str × Str)) : List Str → Except ParseError (List (Str × Str))
  | [] => .ok acc
  | s :: rest =>
    if s = [] then parseSorts acc rest
    else
      match split ':' s with
      | a :: b :: _ => parseSorts (insertKV acc a b) rest
      | _ => .error (.invalidSort s)

/-- The Go zero value `Opts{}`, returned alongside every parse error. -/
def zeroOpts : Opts :=
  { Filter := []
    Sort' := []
    Pagination := { Limit := 0, Offset := [], LimitOverride := false } }

/-- Model of `query.ParseOpts`: filters parsed first, then sorts over
`cleanSlice sort`; on the first malformed token the Go code returns
`Opts{}` together with the error, modelled as the second component. -/
def ParseOpts (offset : Str) (limit : Int) (sort : List Str) (filter : List Str) :
    Opts × Option ParseError :=
  match parseFilters [] filter with
  | .error e => (zeroOpts, some e)
  | .ok filters =>
    match parseSorts [] (cleanSlice sort) with
    | .error e => (zeroOpts, some e)
    | .ok sortParams =>
      ({ Filter := filters
         Sort' := sortParams
         Pagination :=
           { Limit := uint64OfInt32 limit
             Offset := offset
             LimitOverride := decide (limit < 0) } }, none)

theorem split_of_not_mem {sep : Char} {l : Str} (h : sep ∉ l) :
    split sep l = [l] := by
  induction l with
  | nil => rfl
  | cons c cs ih =>
    have hc : c ≠ sep := fun hcs => h (hcs ▸ List.mem_cons_self c cs)
    have hcs : sep ∉ cs := fun hm => h (List.mem_cons_of_mem c hm)
    simp only [split, if_neg hc, ih hcs]

theorem split_append_sep {sep : Char} {f v : Str} (h : sep ∉ f) :
    split sep (f ++ sep :: v) = f :: split sep v := by
  induction f with
  | nil => simp [split]
  | cons c cs ih =>
    have hc : c ≠ sep := fun hcs => h (hcs ▸ List.mem_cons_self c cs)
    have hcs : sep ∉ cs := fun hm => h (List.mem_cons_of_mem c hm)
    have hne : split sep (cs ++ sep :: v) = cs :: split sep v := ih hcs
    simp only [List.cons_append, split, if_neg hc, List.append_eq, hne]

end query

namespace aws

/-- A DynamoDB attribute map; only string attribute values
(`AttributeValueMemberS`) are ever built by this repository. -/
abbrev AttrMap := List (String × String)

/-- Errors the DynamoDB client can return; `resourceNotFound` models
`types.ResourceNotFoundException`, matched by `errors.As(err, &notfound)`. -/
inductive DBError
  | resourceNotFound
  | other (msg : String)
deriving DecidableEq, Repr

/-- Result of one DynamoDB client call. -/
inductive DBResult (α : Type)
  | ok (val : α)
  | err (e : DBError)
deriving DecidableEq, Repr

/-- The fields of `dynamodb.GetItemInput` this repository sets. -/
structure GetItemInput where
  TableName : String
  Key : List (String × String)
deriving DecidableEq, Repr

/-- The fields of `dynamodb.QueryInput` this repository sets. -/
structure QueryInput where
  TableName : String
  Limit : Int
  KeyConditionExpression : String
  ExpressionAttributeValues : List (String × String)
  ScanIndexForward : Bool
deriving DecidableEq, Repr

/-- The fields of `dynamodb.PutItemInput` this repository sets. -/
structure PutItemInput where
  Item : AttrMap
  TableName : String
deriving DecidableEq, Repr

end aws

namespace dynamo

open aws

/-- The `Serializable[T]` interface of package `dynamo`: Go
`(value, error)` returns become pairs with an `Option String` error. -/
structure Serializable (T : Type) where
  Serialize : T → AttrMap × Option String
  Deserialize : AttrMap → T × Option String
  DeserializeList : List AttrMap → List T × Option String
  PK : String
  SK : Option String → String

/-- `DBConf` of package `dynamo`. -/
structure DBConf where
  TableName : String
deriving DecidableEq, Repr

/-- The `GetItemInput` built by `Conn.FindByID`: sort key from `t.SK(&id)`,
partition key from `t.PK()`. -/
def FindByIDParams {T : Type} (ser : Serializable T) (conf : DBConf) (id : String) :
    GetItemInput :=
  { TableName := conf.TableName
    Key := [("SK", ser.SK (some id)), ("PK", ser.PK)] }

/-- `Conn.FindByID` of package `dynamo`; `default` models the Go zero value
`var rs T`. Besides the Go result pair, the second component records the
`GetItem` requests issued. -/
def FindByID {T : Type} [Inhabited T] (ser : Serializable T) (conf : DBConf)
    (getItem : GetItemInput → DBResult AttrMap) (id : String) :
    (T × Option String) × List GetItemInput :=
  let params := FindByIDParams ser conf id
  (match getItem params with
   | .err .resourceNotFound => ((default : T), none)
   | .err (.other _) => ((default : T), some "unable to fetch ")
   | .ok item =>
     match ser.Deserialize item with
     | (rs, some _) => (rs, some "failed to scan ")
     | (rs, none) => (rs, none),
   [params])

/-- The `QueryInput` built by `Conn.FindAll`: fixed page size 10,
condition `PK = :key` on `t.PK()`, descending order; the `filter`
argument is never consulted. -/
def FindAllParams {T : Type} (ser : Serializable T) (conf : DBConf)
    (filter : query.Opts) : QueryInput :=
  { TableName := conf.TableName
    Limit := 10
    KeyConditionExpression := "PK = :key"
    ExpressionAttributeValues := [(":key", ser.PK)]
    ScanIndexForward := false }

/-- `Conn.FindAll` of package `dynamo`; the second component records the
`Query` requests issued. -/
def FindAll {T : Type} (ser : Serializable T) (conf : DBConf)
    (dbQuery : QueryInput → DBResult (List AttrMap)) (filter : query.Opts) :
    (List T × Option String) × List QueryInput :=
  let params := FindAllParams ser conf filter
  (match dbQuery params with
   | .err .resourceNotFound => ([], none)
   | .err (.other _) => ([], some "unable to fetch all ")
   | .ok items =>
     match ser.DeserializeList items with
     | (entities, some _) => (entities, some "unable to fetch all ")
     | (entities, none) => (entities, none),
   [params])

/-- `Conn.Create` of package `dynamo`: serialize, put, and return the
argument `r` itself on every path. -/
def Create {T : Type} (ser : Serializable T) (conf : DBConf)
    (putItem : PutItemInput → Option String) (r : T) : T × Option String :=
  match ser.Serialize r with
  | (_, some _) => (r, some "failed to insert ")
  | (rs, none) =>
    match putItem { Item := rs, TableName := conf.TableName } with
    | some _ => (r, some "failed to insert ")
    | none => (r, none)

end dynamo

namespace database

open aws

/-- The `typeable` interface of package `database`: a static type
discriminator string (the Go method is named `Type()`). -/
structure Typeable (T : Type) where
  typ : String

/-- The table configuration of package `database` (`conn.tableName`). -/
structure ConnConf where
  tableName : String
deriving DecidableEq, Repr

/-- The `GetItemInput` built by `Conn.FindByID` of package `database`:
sort key is the bare identifier, partition attribute `ID` is the literal
empty string; nothing is obtained from `T`. -/
def FindByIDParams (conf : ConnConf) (id : String) : GetItemInput :=
  { TableName := conf.tableName
    Key := [("SK", id), ("ID", "")] }

/-- `Conn.FindByID` of package `database`; `unmarshalMap` models
`attributevalue.UnmarshalMap` into `T`. The second component records the
`GetItem` requests issued. -/
def FindByID {T : Type} [Inhabited T] (conf : ConnConf)
    (unmarshalMap : AttrMap → T × Option String)
    (getItem : GetItemInput → DBResult AttrMap) (id : String) :
    (T × Option String) × List GetItemInput :=
  let params := FindByIDParams conf id
  (match getItem params with
   | .err .resourceNotFound => ((default : T), none)
   | .err (.other _) => ((default : T), some "unable to fetch ")
   | .ok item =>
     match unmarshalMap item with
     | (rs, some _) => (rs, some "failed to scan ")
     | (rs, none) => (rs, none),
   [params])

/-- The `QueryInput` built by `Conn.FindAll` of package `database`: fixed
page size 10, condition `ID = :key` on `t.Type()`, descending order; the
`filter` argument is never consulted. -/
def FindAllParams {T : Type} (ty : Typeable T) (conf : ConnConf)
    (filter : query.Opts) : QueryInput :=
  { TableName := conf.tableName
    Limit := 10
    KeyConditionExpression := "ID = :key"
    ExpressionAttributeValues := [(":key", ty.typ)]
    ScanIndexForward := false }

/-- `Conn.FindAll` of package `database`; `unmarshalList` models
`attributevalue.UnmarshalListOfMaps`. The second component records the
`Query` requests issued. -/
def FindAll {T : Type} (ty : Typeable T) (conf : ConnConf)
    (unmarshalList : List AttrMap → List T × Option String)
    (dbQuery : QueryInput → DBResult (List AttrMap)) (filter : query.Opts) :
    (List T × Option String) × List QueryInput :=
  let params := FindAllParams ty conf filter
  (match dbQuery params with
   | .err .resourceNotFound => ([], none)
   | .err (.other _) => ([], some "unable to fetch all ")
   | .ok items =>
     match unmarshalList items with
     | (entities, some _) => (entities, some "unable to fetch all ")
     | (entities, none) => (entities, none),
   [params])

/-- `Conn.Create` of package `database`: marshal the wrapper
`entity{Entity: r, EntityType: r.Type()}`, put, and return the argument
`r` itself on every path. -/
def Create {T : Type} (ty : Typeable T) (conf : ConnConf)
    (marshalMap : T × String → AttrMap × Option String)
    (putItem : PutItemInput → Option String) (r : T) : T × Option String :=
  match marshalMap (r, ty.typ) with
  | (_, some _) => (r, some "failed to insert ")
  | (rs, none) =>
    match putItem { Item := rs, TableName := conf.tableName } with
    | some _ => (r, some "failed to insert ")
    | none => (r, none)

end database

namespace api

/-- What a handler writes to the `http.ResponseWriter`: either a JSON body
(`EncodeJSONResponse`) or `http.Error` with a status and plain-text body. -/
inductive RestResponse (T : Type)
  | json (body : T)
  | plainError (status : Nat) (body : String)
deriving DecidableEq, Repr

/-- Raw request body bytes. -/
abbrev Bytes := List Nat

/-- `extractBody` of package `api`: read all body bytes, then JSON-decode
into `T`; `readAll` models `ioutil.ReadAll` and `unmarshal` models
`json.Unmarshal`, each as a Go-style result pair. -/
def extractBody {T β : Type} [Inhabited T] (readAll : β → Bytes × Option String)
    (unmarshal : Bytes → T × Option String) (r : β) : T × Option String :=
  match readAll r with
  | (_, some _) => ((default : T), some "unable to read body")
  | (b, none) =>
    match unmarshal b with
    | (rs, some _) => (rs, some "unable to unmarshal body")
    | (rs, none) => (rs, none)

/-- The closure built by `NewCreateHandler`: decode failures respond 400
with body `"invalid resource"` and never reach the factory; a factory
failure responds 500; a success is JSON-encoded. The second component
records the arguments of every `factory.Create` call made. -/
def NewCreateHandler {T β : Type} [Inhabited T] (readAll : β → Bytes × Option String)
    (unmarshal : Bytes → T × Option String) (create : T → T × Option String)
    (r : β) : RestResponse T × List T :=
  match extractBody readAll unmarshal r with
  | (_, some _) => (.plainError 400 "invalid resource", [])
  | (resource, none) =>
    match create resource with
    | (_, some _) => (.plainError 500 "unable to create resource", [resource])
    | (created, none) => (.json created, [resource])

end api

namespace query

theorem cleanSlice_idem (s : List Str) : cleanSlice (cleanSlice s) = cleanSlice s := by
  induction s with
  | nil => rfl
  | cons x xs ih =>
    by_cases hx : x = []
    · simp [cleanSlice, hx, ih]
    · simp [cleanSlice, hx, ih]

theorem parseFilters_cleanSlice (f : List Str) :
    ∀ acc, parseFilters acc (cleanSlice f) = parseFilters acc f := by
  induction f with
  | nil => intro acc; rfl
  | cons x xs ih =>
    intro acc
    by_cases hx : x = []
    · simp [cleanSlice, parseFilters, hx, ih]
    · rcases hs : split ':' x with _ | ⟨a, _ | ⟨b, _ | _⟩⟩ <;>
        simp [cleanSlice, parseFilters, hx, hs, ih]

theorem parseSorts_cleanSlice (s : List Str) :
    ∀ acc, parseSorts acc (cleanSlice s) = parseSorts acc s := by
  induction s with
  | nil => intro acc; rfl
  | cons x xs ih =>
    intro acc
    by_cases hx : x = []
    · simp [cleanSlice, parseSorts, hx, ih]
    · rcases hs : split ':' x with _ | ⟨a, _ | ⟨b, _⟩⟩ <;>
        simp [cleanSlice, parseSorts, hx, hs, ih]

theorem ParseOpts_pagination_of_ok {o : Str} {l : Int} {s f : List Str}
    (h : (ParseOpts o l s f).2 = none) :
    (ParseOpts o l s f).1.Pagination =
      { Limit := uint64OfInt32 l, Offset := o, LimitOverride := decide (l < 0) } := by
  unfold ParseOpts at h ⊢
  rcases h1 : parseFilters [] f with e | fl
  · rw [h1] at h; simp at h
  · rw [h1] at h
    rcases h2 : parseSorts [] (cleanSlice s) with e | sl
    · rw [h2] at h; simp at h
    · rfl

end query

/-- C1 counterexample: with a malformed filter token the call
`ParseOpts("x", -1, [], ["a"])` returns options whose `LimitOverride` is
`false` although `limit < 0`; and even on the successful call
`ParseOpts("x", -1, [], [])` the stored `Limit` is `2 ^ 64 - 1`, not the
raw value `-1`. -/
theorem parseOpts_negative_limit_counterexample :
    (query.ParseOpts ['x'] (-1) [] [['a']]).1.Pagination.LimitOverride = false ∧
    ((query.ParseOpts ['x'] (-1) [] []).1.Pagination.Limit : Int) ≠ -1 ∧
    ((query.ParseOpts ['x'] (-1) [] []).1.Pagination.Limit : Int) = 2 ^ 64 - 1 := by
  refine ⟨by decide, by decide, by decide⟩

/-- C1 amended: on every call whose parse succeeds, an `int32` limit below
zero yields `LimitOverride = true` and a stored `Limit` equal to
`limit + 2 ^ 64`, the two's-complement `uint64` image of the raw negative
value (from which that value is recoverable); a limit of at least zero
yields `LimitOverride = false` and the limit stored unchanged. -/
theorem parseOpts_negative_limit_amended (offset : query.Str) (limit : Int)
    (sort filter : List query.Str)
    (hlo : -(2 ^ 31) ≤ limit) (hhi : limit < 2 ^ 31)
    (hok : (query.ParseOpts offset limit sort filter).2 = none) :
    (limit < 0 →
      (query.ParseOpts offset limit sort filter).1.Pagination.LimitOverride = true ∧
      ((query.ParseOpts offset limit sort filter).1.Pagination.Limit : Int) =
        limit + 2 ^ 64) ∧
    (0 ≤ limit →
      (query.ParseOpts offset limit sort filter).1.Pagination.LimitOverride = false ∧
      ((query.ParseOpts offset limit sort filter).1.Pagination.Limit : Int) = limit) := by
  rw [query.ParseOpts_pagination_of_ok hok]
  constructor
  · intro hneg
    refine ⟨by simp [hneg], ?_⟩
    simp only [query.uint64OfInt32]
    omega
  · intro hpos
    refine ⟨by simp [not_lt.mpr hpos], ?_⟩
    simp only [query.uint64OfInt32]
    omega

/-- C1 amended, witnessed at `ParseOpts("x", -1, [], [])`. -/
theorem parseOpts_negative_limit_amended_witness :
    (query.ParseOpts ['x'] (-1) [] []).1.Pagination.LimitOverride = true ∧
    ((query.ParseOpts ['x'] (-1) [] []).1.Pagination.Limit : Int) = -1 + 2 ^ 64 :=
  (parseOpts_negative_limit_amended ['x'] (-1) [] []
    (by decide) (by decide) (by decide)).1 (by decide)

/-- C5: a non-empty filter token built as `field:value` from colon-free
parts parses successfully and stores the value under the field; a
non-empty token that does not split on the colon into exactly two parts
fails with the `ParseError` naming that token. -/
theorem parseOpts_filter_token_spec (offset : query.Str) (limit : Int) :
    (∀ fld v : query.Str, ':' ∉ fld → ':' ∉ v →
      (query.ParseOpts offset limit [] [fld ++ ':' :: v]).2 = none ∧
      query.lookupKV (query.ParseOpts offset limit [] [fld ++ ':' :: v]).1.Filter fld =
        some v) ∧
    (∀ t : query.Str, t ≠ [] → (query.split ':' t).length ≠ 2 →
      (query.ParseOpts offset limit [] [t]).2 =
        some (query.ParseError.invalidFilter t)) := by
  constructor
  · intro fld v hf hv
    have ht : fld ++ ':' :: v ≠ [] := by simp
    have hsp : query.split ':' (fld ++ ':' :: v) = [fld, v] := by
      rw [query.split_append_sep hf, query.split_of_not_mem hv]
    constructor
    · simp [query.ParseOpts, query.parseFilters, ht, hsp, query.insertKV,
        query.parseSorts, query.cleanSlice]
    · simp [query.ParseOpts, query.parseFilters, ht, hsp, query.insertKV,
        query.parseSorts, query.cleanSlice, query.lookupKV]
  · intro t ht hlen
    rcases hsp : query.split ':' t with _ | ⟨a, _ | ⟨b, _ | ⟨c, cs⟩⟩⟩
    · simp [query.ParseOpts, query.parseFilters, ht, hsp]
    · simp [query.ParseOpts, query.parseFilters, ht, hsp]
    · exact absurd (by rw [hsp] ; rfl) hlen
    · simp [query.ParseOpts, query.parseFilters, ht, hsp]

/-- C5 witnessed at the well-formed token `"a:b"` and the malformed token
`"a"`. -/
theorem parseOpts_filter_token_witness :
    ((query.ParseOpts [] 0 [] [['a'] ++ ':' :: ['b']]).2 = none ∧
      query.lookupKV (query.ParseOpts [] 0 [] [['a'] ++ ':' :: ['b']]).1.Filter ['a'] =
        some ['b']) ∧
    (query.ParseOpts [] 0 [] [['a']]).2 =
      some (query.ParseError.invalidFilter ['a']) :=
  ⟨(parseOpts_filter_token_spec [] 0).1 ['a'] ['b'] (by decide) (by decide),
   (parseOpts_filter_token_spec [] 0).2 ['a'] (by decide) (by decide)⟩

/-- C6: a sort token that splits on the colon into at least two parts
parses successfully, stores the second part under the first and ignores
any trailing parts; a non-empty sort token with fewer than two parts fails
with the `ParseError` naming that token. -/
theorem parseOpts_sort_token_spec (offset : query.Str) (limit : Int) :
    (∀ (t fld d : query.Str) (rest : List query.Str),
      query.split ':' t = fld :: d :: rest →
      (query.ParseOpts offset limit [t] []).2 = none ∧
      query.lookupKV (query.ParseOpts offset limit [t] []).1.Sort' fld = some d) ∧
    (∀ t : query.Str, t ≠ [] → (query.split ':' t).length < 2 →
      (query.ParseOpts offset limit [t] []).2 =
        some (query.ParseError.invalidSort t)) := by
  constructor
  · intro t fld d rest hsp
    have ht : t ≠ [] := by
      intro h
      rw [h] at hsp
      simp [query.split] at hsp
    constructor
    · simp [query.ParseOpts, query.parseFilters, query.cleanSlice, ht,
        query.parseSorts, hsp, query.insertKV]
    · simp [query.ParseOpts, query.parseFilters, query.cleanSlice, ht,
        query.parseSorts, hsp, query.insertKV, query.lookupKV]
  · intro t ht hlen
    rcases hsp : query.split ':' t with _ | ⟨a, _ | ⟨b, bs⟩⟩
    · simp [query.ParseOpts, query.parseFilters, query.cleanSlice, ht,
        query.parseSorts, hsp]
    · simp [query.ParseOpts, query.parseFilters, query.cleanSlice, ht,
        query.parseSorts, hsp]
    · rw [hsp] at hlen
      simp at hlen
      omega

/-- C6 witnessed at the tokens `"a:b:c"` (trailing part ignored) and `"a"`
(no colon). -/
theorem parseOpts_sort_token_witness :
    ((query.ParseOpts [] 0 [['a', ':', 'b', ':', 'c']] []).2 = none ∧
      query.lookupKV (query.ParseOpts [] 0 [['a', ':', 'b', ':', 'c']] []).1.Sort' ['a'] =
        some ['b']) ∧
    (query.ParseOpts [] 0 [['a']] []).2 =
      some (query.ParseError.invalidSort ['a']) :=
  ⟨(parseOpts_sort_token_spec [] 0).1 ['a', ':', 'b', ':', 'c'] ['a'] ['b'] [['c']]
      (by decide),
   (parseOpts_sort_token_spec [] 0).2 ['a'] (by decide) (by decide)⟩

/-- C7: empty-string tokens in the filter and sort inputs are skipped
before parsing — the whole result of `ParseOpts`, error included, equals
the result on the inputs with the empty strings removed. -/
theorem parseOpts_ignores_empty_tokens (offset : query.Str) (limit : Int)
    (sort filter : List query.Str) :
    query.ParseOpts offset limit sort filter =
      query.ParseOpts offset limit (query.cleanSlice sort) (query.cleanSlice filter) := by
  unfold query.ParseOpts
  rw [query.parseFilters_cleanSlice, query.cleanSlice_idem]

/-- C9: `ParseOpts` is atomic on failure — whenever it reports a parse
error, the options value returned beside the error is the zero value
`Opts{}`: no filter or sort entries, and zero-valued pagination fields
regardless of the `limit` and `offset` arguments. -/
theorem parseOpts_atomic_on_failure (offset : query.Str) (limit : Int)
    (sort filter : List query.Str) (e : query.ParseError)
    (h : (query.ParseOpts offset limit sort filter).2 = some e) :
    (query.ParseOpts offset limit sort filter).1 = query.zeroOpts := by
  unfold query.ParseOpts at h ⊢
  rcases h1 : query.parseFilters [] filter with e1 | fl
  · rfl
  · rw [h1] at h
    rcases h2 : query.parseSorts [] (query.cleanSlice sort) with e2 | sl
    · rfl
    · rw [h2] at h; simp at h

/-- C9 witnessed at `ParseOpts("x", 5, [], ["a"])`: the malformed filter
token makes the call fail, and the options beside the error are zero. -/
theorem parseOpts_atomic_on_failure_witness :
    (query.ParseOpts ['x'] 5 [] [['a']]).1 = query.zeroOpts :=
  parseOpts_atomic_on_failure ['x'] 5 [] [['a']]
    (query.ParseError.invalidFilter ['a']) (by decide)

/-- A concrete serializer over `Nat` used to witness adapter theorems. -/
def exSer : dynamo.Serializable Nat :=
  { Serialize := fun _ => ([], none)
    Deserialize := fun _ => (0, none)
    DeserializeList := fun _ => ([], none)
    PK := "item"
    SK := fun i => "item#" ++ i.getD "" }

/-- A concrete `dynamo` table configuration for witnesses. -/
def exConf : dynamo.DBConf := { TableName := "tbl" }

/-- A concrete `database` table configuration for witnesses. -/
def exConf2 : database.ConnConf := { tableName := "tbl" }

/-- A concrete discriminator for witnesses. -/
def exTy : database.Typeable Nat := { typ := "item" }

/-- A client whose `GetItem` always reports `ResourceNotFoundException`. -/
def exGetNF : aws.GetItemInput → aws.DBResult aws.AttrMap :=
  fun _ => .err .resourceNotFound

/-- A client whose `GetItem` always fails with a non-not-found error. -/
def exGetErr : aws.GetItemInput → aws.DBResult aws.AttrMap :=
  fun _ => .err (.other "boom")

/-- A client whose `Query` always reports `ResourceNotFoundException`. -/
def exQueryNF : aws.QueryInput → aws.DBResult (List aws.AttrMap) :=
  fun _ => .err .resourceNotFound

/-- A concrete `attributevalue.UnmarshalMap` stand-in for witnesses. -/
def exUm : aws.AttrMap → Nat × Option String := fun _ => (0, none)

/-- A concrete `attributevalue.UnmarshalListOfMaps` stand-in for witnesses. -/
def exUmList : List aws.AttrMap → List Nat × Option String := fun _ => ([], none)

/-- C2: in both adapters, when the store reports that no such item exists
(`ResourceNotFoundException`), `FindByID` returns the zero value of `T`
(modelled by `default`) and no error; on any other store failure it
returns the error `"unable to fetch "`. -/
theorem findByID_absence_spec {T : Type} [Inhabited T]
    (ser : dynamo.Serializable T) (conf : dynamo.DBConf)
    (getItem : aws.GetItemInput → aws.DBResult aws.AttrMap) (id : String)
    (conf2 : database.ConnConf) (um : aws.AttrMap → T × Option String)
    (getItem2 : aws.GetItemInput → aws.DBResult aws.AttrMap) (id2 : String) :
    (getItem (dynamo.FindByIDParams ser conf id) = .err .resourceNotFound →
      (dynamo.FindByID ser conf getItem id).1 = ((default : T), none)) ∧
    (∀ msg, getItem (dynamo.FindByIDParams ser conf id) = .err (.other msg) →
      (dynamo.FindByID ser conf getItem id).1 =
        ((default : T), some "unable to fetch ")) ∧
    (getItem2 (database.FindByIDParams conf2 id2) = .err .resourceNotFound →
      (database.FindByID conf2 um getItem2 id2).1 = ((default : T), none)) ∧
    (∀ msg, getItem2 (database.FindByIDParams conf2 id2) = .err (.other msg) →
      (database.FindByID conf2 um getItem2 id2).1 =
        ((default : T), some "unable to fetch ")) := by
  refine ⟨?_, ?_, ?_, ?_⟩
  · intro h; simp [dynamo.FindByID, h]
  · intro msg h; simp [dynamo.FindByID, h]
  · intro h; simp [database.FindByID, h]
  · intro msg h; simp [database.FindByID, h]

/-- C2 witnessed over `Nat` with clients that always report not-found
resp. a generic failure, in both adapters. -/
theorem findByID_absence_witness :
    (dynamo.FindByID exSer exConf exGetNF "a1").1 = (0, none) ∧
    (dynamo.FindByID exSer exConf exGetErr "a1").1 = (0, some "unable to fetch ") ∧
    (database.FindByID exConf2 exUm exGetNF "a1").1 = (0, none) ∧
    (database.FindByID exConf2 exUm exGetErr "a1").1 = (0, some "unable to fetch ") :=
  ⟨(findByID_absence_spec exSer exConf exGetNF "a1" exConf2 exUm exGetNF "a1").1 rfl,
   (findByID_absence_spec exSer exConf exGetErr "a1" exConf2 exUm exGetErr "a1").2.1
     "boom" rfl,
   (findByID_absence_spec exSer exConf exGetNF "a1" exConf2 exUm exGetNF "a1").2.2.1 rfl,
   (findByID_absence_spec exSer exConf exGetErr "a1" exConf2 exUm exGetErr "a1").2.2.2
     "boom" rfl⟩

/-- C3: in both adapters, `FindAll` issues exactly one range query, whose
parameters do not depend on the `QueryOptions` argument and are the
partition condition on the static discriminator, descending order and a
fixed page size 10; when the store reports that the partition does not
exist, the result is the empty list with no error. -/
theorem findAll_fixed_query_spec {T : Type} (ser : dynamo.Serializable T)
    (conf : dynamo.DBConf) (db : aws.QueryInput → aws.DBResult (List aws.AttrMap))
    (opts opts' : query.Opts) (ty : database.Typeable T) (conf2 : database.ConnConf)
    (uml : List aws.AttrMap → List T × Option String)
    (db2 : aws.QueryInput → aws.DBResult (List aws.AttrMap))
    (opts2 opts2' : query.Opts) :
    (dynamo.FindAll ser conf db opts).2 = [dynamo.FindAllParams ser conf opts] ∧
    dynamo.FindAllParams ser conf opts = dynamo.FindAllParams ser conf opts' ∧
    dynamo.FindAllParams ser conf opts =
      { TableName := conf.TableName
        Limit := 10
        KeyConditionExpression := "PK = :key"
        ExpressionAttributeValues := [(":key", ser.PK)]
        ScanIndexForward := false } ∧
    (db (dynamo.FindAllParams ser conf opts) = .err .resourceNotFound →
      (dynamo.FindAll ser conf db opts).1 = ([], none)) ∧
    (database.FindAll ty conf2 uml db2 opts2).2 =
      [database.FindAllParams ty conf2 opts2] ∧
    database.FindAllParams ty conf2 opts2 = database.FindAllParams ty conf2 opts2' ∧
    database.FindAllParams ty conf2 opts2 =
      { TableName := conf2.tableName
        Limit := 10
        KeyConditionExpression := "ID = :key"
        ExpressionAttributeValues := [(":key", ty.typ)]
        ScanIndexForward := false } ∧
    (db2 (database.FindAllParams ty conf2 opts2) = .err .resourceNotFound →
      (database.FindAll ty conf2 uml db2 opts2).1 = ([], none)) := by
  refine ⟨rfl, rfl, rfl, ?_, rfl, rfl, rfl, ?_⟩
  · intro h; simp [dynamo.FindAll, h]
  · intro h; simp [database.FindAll, h]

/-- C3 witnessed over `Nat` with a client that always reports not-found,
in both adapters. -/
theorem findAll_fixed_query_witness :
    (dynamo.FindAll exSer exConf exQueryNF query.zeroOpts).1 = ([], none) ∧
    (database.FindAll exTy exConf2 exUmList exQueryNF query.zeroOpts).1 = ([], none) :=
  ⟨(findAll_fixed_query_spec exSer exConf exQueryNF query.zeroOpts query.zeroOpts
      exTy exConf2 exUmList exQueryNF query.zeroOpts query.zeroOpts).2.2.2.1 rfl,
   (findAll_fixed_query_spec exSer exConf exQueryNF query.zeroOpts query.zeroOpts
      exTy exConf2 exUmList exQueryNF query.zeroOpts
      query.zeroOpts).2.2.2.2.2.2.2 rfl⟩

/-- C4: the `dynamo` adapter derives the point-lookup key from `T`
(partition key `t.PK()`, sort key `t.SK(&id)`), but the `database` adapter
hard-codes both members: for every identifier its `FindByID` sends
partition attribute `ID` equal to the empty string — not the
discriminator — and the bare identifier as sort key, as the evaluation at
identifier `"a1"` shows. -/
theorem findByID_key_derivation_bug {T : Type} [Inhabited T]
    (ser : dynamo.Serializable T) (conf : dynamo.DBConf)
    (db : aws.GetItemInput → aws.DBResult aws.AttrMap) (id : String) :
    (dynamo.FindByID ser conf db id).2 =
      [{ TableName := conf.TableName
         Key := [("SK", ser.SK (some id)), ("PK", ser.PK)] }] ∧
    (∀ (conf2 : database.ConnConf) (um : aws.AttrMap → T × Option String)
        (db2 : aws.GetItemInput → aws.DBResult aws.AttrMap) (id2 : String),
      (database.FindByID conf2 um db2 id2).2 =
        [{ TableName := conf2.tableName, Key := [("SK", id2), ("ID", "")] }]) ∧
    (database.FindByID exConf2 exUm exGetNF "a1").2 =
      [{ TableName := "tbl", Key := [("SK", "a1"), ("ID", "")] }] :=
  ⟨rfl, fun _ _ _ _ => rfl, rfl⟩

/-- C10: in both adapters, `Create` returns its argument unchanged — on
success, on serialization failure and on store failure alike. -/
theorem create_returns_argument {T : Type} (ser : dynamo.Serializable T)
    (conf : dynamo.DBConf) (put : aws.PutItemInput → Option String) (r : T)
    (ty : database.Typeable T) (conf2 : database.ConnConf)
    (mm : T × String → aws.AttrMap × Option String)
    (put2 : aws.PutItemInput → Option String) (r2 : T) :
    (dynamo.Create ser conf put r).1 = r ∧
    (database.Create ty conf2 mm put2 r2).1 = r2 := by
  constructor
  · unfold dynamo.Create
    rcases ser.Serialize r with ⟨rs, _ | m⟩
    · cases hp : put { Item := rs, TableName := conf.TableName } <;> simp [hp]
    · simp
  · unfold database.Create
    rcases mm (r2, ty.typ) with ⟨rs, _ | m⟩
    · cases hp : put2 { Item := rs, TableName := conf2.tableName } <;> simp [hp]
    · simp

/-- C8: the create handler maps a body-decode failure to status 400 with
the non-empty plain-text body `"invalid resource"` and makes no call to
the factory; a decode success followed by a factory failure maps to
status 500; and no plain-text error status other than 400 or 500 is ever
produced by the handler. -/
theorem createHandler_status_spec {T β : Type} [Inhabited T]
    (readAll : β → api.Bytes × Option String)
    (unmarshal : api.Bytes → T × Option String)
    (create : T → T × Option String) (r : β) :
    ((api.extractBody readAll unmarshal r).2.isSome = true →
      api.NewCreateHandler readAll unmarshal create r =
        (.plainError 400 "invalid resource", []) ∧
      "invalid resource" ≠ "") ∧
    ((api.extractBody readAll unmarshal r).2 = none →
      ∀ msg, (create (api.extractBody readAll unmarshal r).1).2 = some msg →
      (api.NewCreateHandler readAll unmarshal create r).1 =
        .plainError 500 "unable to create resource") ∧
    (∀ st b, (api.NewCreateHandler readAll unmarshal create r).1 =
        .plainError st b → st = 400 ∨ st = 500) := by
  unfold api.NewCreateHandler
  rcases hx : api.extractBody readAll unmarshal r with ⟨res, _ | m⟩
  · rcases hc : create res with ⟨cr, _ | m2⟩
    · refine ⟨?_, ?_, ?_⟩
      · intro h; simp at h
      · intro _ msg hmsg
        simp at hmsg
      · intro st b hb; simp [hc] at hb
    · refine ⟨?_, ?_, ?_⟩
      · intro h; simp at h
      · intro _ msg _; simp [hc]
      · intro st b hb
        simp [hc] at hb
        omega
  · refine ⟨?_, ?_, ?_⟩
    · intro _; exact ⟨by simp, by decide⟩
    · intro h2; simp at h2
    · intro st b hb
      simp at hb
      omega

/-- A body reader that always fails, for the C8 witness. -/
def exReadFail : Unit → api.Bytes × Option String := fun _ => ([], some "closed")

/-- A JSON decoder over `Nat` for the C8 witness. -/
def exUnm : api.Bytes → Nat × Option String := fun _ => (0, none)

/-- A factory over `Nat` for the C8 witness. -/
def exCreate : Nat → Nat × Option String := fun _ => (0, none)

/-- C8 witnessed with a failing body reader: the handler responds 400 with
a non-empty body and records no factory call. -/
theorem createHandler_status_witness :
    api.NewCreateHandler exReadFail exUnm exCreate () =
      (.plainError 400 "invalid resource", []) ∧
    "invalid resource" ≠ "" :=
  (createHandler_status_spec exReadFail exUnm exCreate ()).1 rfl
